import Mathlib

/-!
Verification model of the pymox mock-object framework core: the comparator
value model, the expected-call record, the expectation queue with unordered
and multiple-times groups, the replay matching algorithm, and the
verify-time error taxonomy.  The implementation module `mox.py` is not part
of the source tree here (only its test suite is), so every engine
definition below is modelled from the specification, with the concrete
formats (diagnostic strings, error classes) pinned by the assertions of
`mox_test.py`.
-/

set_option maxHeartbeats 1000000

/- ---------------------------------------------------------------------
   Python values
--------------------------------------------------------------------- -/

mutual

/-- Modelled from the spec: the universe of Python argument values handled
by the matching engine.  Floats are exact rationals, dictionaries are
association lists in insertion order, iterators carry their full element
stream, and plain objects are identified by an id. -/
inductive PyVal where
  | noneVal
  | boolVal (b : Bool)
  | intVal (n : Int)
  | floatVal (q : ℚ)
  | strVal (s : String)
  | listVal (elems : PyList)
  | tupleVal (elems : PyList)
  | dictVal (entries : PyDict)
  | setVal (elems : PyList)
  | iterVal (elems : PyList)
  | objVal (oid : Nat)
deriving DecidableEq

/-- A sequence of Python values (a cons-list mutual with `PyVal`). -/
inductive PyList where
  | nil
  | cons (head : PyVal) (tail : PyList)
deriving DecidableEq

/-- Entries of a Python dictionary, in insertion order. -/
inductive PyDict where
  | nil
  | cons (key : PyVal) (value : PyVal) (tail : PyDict)
deriving DecidableEq

end

/-- Conversion from a Lean list of values to a `PyList`. -/
def PyList.ofList : List PyVal → PyList
  | [] => .nil
  | x :: xs => .cons x (PyList.ofList xs)

/-- Conversion from a `PyList` back to a Lean list. -/
def PyList.toList : PyList → List PyVal
  | .nil => []
  | .cons x xs => x :: PyList.toList xs

/-- Length of a `PyList`. -/
def PyList.length : PyList → Nat
  | .nil => 0
  | .cons _ xs => 1 + PyList.length xs

/-- Modelled from the spec: structural equality of Python values, the
`Equals` comparator's notion of `==`. -/
def pyEq (a b : PyVal) : Bool :=
  decide (a = b)

/-- Membership of a value in a `PyList`, by structural equality. -/
def PyList.containsVal : PyList → PyVal → Bool
  | .nil, _ => false
  | .cons x xs, v => pyEq x v || PyList.containsVal xs v

/-- The keys of a dictionary, in insertion order. -/
def PyDict.keys : PyDict → PyList
  | .nil => .nil
  | .cons k _ kvs => .cons k (PyDict.keys kvs)

/-- Dictionary lookup: does the dictionary bind `k` to `v`? -/
def PyDict.hasKeyValue : PyDict → PyVal → PyVal → Bool
  | .nil, _, _ => false
  | .cons k v kvs, key, value =>
      (pyEq k key && pyEq v value) || PyDict.hasKeyValue kvs key value

mutual

/-- Modelled from the spec: the diagnostic rendering of a value, mirroring
Python `repr` for the value shapes exercised by the tests (ints, strings,
None, booleans, tuples, lists, dicts). -/
def pyRepr : PyVal → String
  | .noneVal => "None"
  | .boolVal b => if b then "True" else "False"
  | .intVal n => toString n
  | .floatVal q => toString q
  | .strVal s => "\x27" ++ s ++ "\x27"
  | .listVal xs => "[" ++ pyReprList xs ++ "]"
  | .tupleVal (.cons x .nil) => "(" ++ pyRepr x ++ ",)"
  | .tupleVal xs => "(" ++ pyReprList xs ++ ")"
  | .dictVal kvs => "\x7b" ++ pyReprDict kvs ++ "\x7d"
  | .setVal .nil => "set()"
  | .setVal xs => "\x7b" ++ pyReprList xs ++ "\x7d"
  | .iterVal _ => "<iterator>"
  | .objVal i => "<object " ++ toString i ++ ">"

/-- Comma-separated rendering of the elements of a `PyList`. -/
def pyReprList : PyList → String
  | .nil => ""
  | .cons x .nil => pyRepr x
  | .cons x xs => pyRepr x ++ ", " ++ pyReprList xs

/-- Comma-separated rendering of the entries of a `PyDict`. -/
def pyReprDict : PyDict → String
  | .nil => ""
  | .cons k v .nil => pyRepr k ++ ": " ++ pyRepr v
  | .cons k v kvs => pyRepr k ++ ": " ++ pyRepr v ++ ", " ++ pyReprDict kvs

end

/-- The runtime type tags of `PyVal`, for the `IsA` comparator. -/
inductive PyType where
  | noneType
  | boolType
  | intType
  | floatType
  | strType
  | listType
  | tupleType
  | dictType
  | setType
  | iterType
  | objType
deriving DecidableEq

/-- The runtime type of a value. -/
def pyTypeOf : PyVal → PyType
  | .noneVal => .noneType
  | .boolVal _ => .boolType
  | .intVal _ => .intType
  | .floatVal _ => .floatType
  | .strVal _ => .strType
  | .listVal _ => .listType
  | .tupleVal _ => .tupleType
  | .dictVal _ => .dictType
  | .setVal _ => .setType
  | .iterVal _ => .iterType
  | .objVal _ => .objType

/- ---------------------------------------------------------------------
   Error taxonomy
--------------------------------------------------------------------- -/

/-- Modelled from the spec: the typed failure signals of the framework,
together with the host-language errors the tests exercise (`ValueError`
for the empty aggregate error, `re.error` for an invalid pattern) and a
stand-in for user-defined exceptions raised by `Func` predicates. -/
inductive PyErr where
  | UnexpectedMethodCallError (message : String)
  | ExpectedMethodCallsError (message : String)
  | SwallowedExceptionError (message : String)
  | ValueError (message : String)
  | reError (message : String)
  | TypeError (message : String)
  | testException (tag : Nat)
deriving DecidableEq

/-- Recognizer for the mismatch error latched by the lifecycle controller. -/
def PyErr.isUnexpectedCall : PyErr → Bool
  | .UnexpectedMethodCallError _ => true
  | _ => false

/-- Recognizer for the swallowed-exception verify failure. -/
def PyErr.isSwallowed : PyErr → Bool
  | .SwallowedExceptionError _ => true
  | _ => false

/- ---------------------------------------------------------------------
   String helpers (structural, so that concrete runs evaluate)
--------------------------------------------------------------------- -/

/-- Prefix test on character lists. -/
def charListIsPrefixOf : List Char → List Char → Bool
  | [], _ => true
  | _ :: _, [] => false
  | c :: cs, d :: ds => c == d && charListIsPrefixOf cs ds

/-- Substring occurrence test on character lists. -/
def charListContains : List Char → List Char → Bool
  | [], needle => needle.isEmpty
  | c :: cs, needle => charListIsPrefixOf needle (c :: cs) || charListContains cs needle

/-- Substring occurrence test on strings (used to model `re.search` and
the containment comparators; pattern semantics beyond literal occurrence
are not exercised by any claim). -/
def strContainsSub (s pat : String) : Bool :=
  charListContains s.data pat.data

/- ---------------------------------------------------------------------
   Comparators
--------------------------------------------------------------------- -/

/-- Membership as Python `in`: element of a list, tuple, set or iterator,
key of a dictionary, or substring of a string. -/
def pyContains (container elem : PyVal) : Bool :=
  match container with
  | .listVal xs => xs.containsVal elem
  | .tupleVal xs => xs.containsVal elem
  | .setVal xs => xs.containsVal elem
  | .iterVal xs => xs.containsVal elem
  | .dictVal kvs => (PyDict.keys kvs).containsVal elem
  | .strVal s =>
      match elem with
      | .strVal e => strContainsSub s e
      | _ => false
  | _ => false

/-- Modelled from the spec: `Is` compares object identity; object values
carry an id, and identity on immutable literals is modelled as structural
equality (no claim exercises the difference). -/
def pyIs (a b : PyVal) : Bool :=
  decide (a = b)

/-- Modelled from the spec: the numeric reading of a value (`IsAlmost`
only matches when both operands are numeric; Python numbers, booleans
included, map to exact rationals). -/
def pyToRat : PyVal → Option ℚ
  | .intVal n => some ((n : ℚ))
  | .floatVal q => some q
  | .boolVal b => some (if b then 1 else 0)
  | _ => Option.none

/-- Modelled from the spec: `IsAlmost` equality,
`|actual - expected| < 0.5 * 10 ^ (-places)`; non-numeric operands never
match and never raise.  The inequality is computed in cross-multiplied
integer form (`|a.num * e.den - e.num * a.den| * (2 * 10 ^ places) <
a.den * e.den`), which `isAlmostMatches_iff` proves equivalent to the
rational formula. -/
def isAlmostMatches (expected : PyVal) (places : Nat) (actual : PyVal) : Bool :=
  match pyToRat expected, pyToRat actual with
  | some e, some a =>
      decide ((a.num * (e.den : Int) - e.num * (a.den : Int)).natAbs *
        (2 * 10 ^ places) < a.den * e.den)
  | _, _ => false

/-- The default `places` of `IsAlmost`. -/
def isAlmostDefaultPlaces : Nat := 7

/-- Removal of the first structurally equal occurrence of a value. -/
def PyList.removeFirst : PyList → PyVal → Option PyList
  | .nil, _ => Option.none
  | .cons x xs, v =>
      if pyEq x v then some xs
      else (PyList.removeFirst xs v).map (fun r => PyList.cons x r)

/-- Multiset equality of two value sequences: same elements with the same
multiplicities, in any order, compared by structural equality (so
unhashable elements such as dictionaries are compared by equality). -/
def PyList.sameElements : PyList → PyList → Bool
  | .nil, ys => match ys with | .nil => true | _ => false
  | .cons x xs, ys =>
      match PyList.removeFirst ys x with
      | some ys2 => PyList.sameElements xs ys2
      | _ => false

/-- Modelled from the test suite: the element stream of an actual value for
`SameElementsAs` — a list, tuple, set or iterator yields its elements (an
iterator is fully consumed and stored), a dictionary yields its keys; any
other value is not a sequence. -/
def seqElems : PyVal → Option PyList
  | .listVal xs => some xs
  | .tupleVal xs => some xs
  | .setVal xs => some xs
  | .iterVal xs => some xs
  | .dictVal kvs => some (PyDict.keys kvs)
  | _ => Option.none

/-- Modelled from the test suite: `SameElementsAs(expected)` matches an
actual value iff the actual is a sequence whose elements are a
permutation of the expected elements. -/
def sameElementsMatch (expected : PyList) (actual : PyVal) : Bool :=
  match seqElems actual with
  | some xs => PyList.sameElements expected xs
  | _ => false

mutual

/-- Modelled from the spec: the tagged-union comparator type.  `Func`
wraps a predicate that may raise (hence `Except`); `And`/`Or`/`Not`
compose comparators; the remaining variants are value-matching
predicates.  `Value`/`Remember` are stateful and modelled separately. -/
inductive Comparator where
  | Equals (value : PyVal)
  | IsA (ty : PyType)
  | IsAlmost (value : PyVal) (places : Nat)
  | StrContains (substr : String)
  | Regex (pattern : String) (flags : Nat)
  | Func (predicate : PyVal → Except PyErr Bool)
  | In (container : PyVal)
  | ContainsKeyValue (key : PyVal) (value : PyVal)
  | Is (value : PyVal)
  | And (clauses : ComparatorList)
  | Or (clauses : ComparatorList)
  | Not (clause : Comparator)
  | SameElementsAs (expected : PyList)

/-- A sequence of comparators (mutual with `Comparator` so that all
recursion stays structural). -/
inductive ComparatorList where
  | nil
  | cons (head : Comparator) (tail : ComparatorList)

end

mutual

/-- Modelled from the spec: the match test of a comparator against an
actual value.  Only `Func` (and compositions containing it) can raise;
its wrapped predicate's outcome — verdict or exception — is returned
unmodified. -/
def Comparator.matches : Comparator → PyVal → Except PyErr Bool
  | .Equals v, a => .ok (pyEq v a)
  | .IsA t, a => .ok (decide (pyTypeOf a = t))
  | .IsAlmost v places, a => .ok (isAlmostMatches v places a)
  | .StrContains sub, a =>
      .ok (match a with | .strVal s => strContainsSub s sub | _ => false)
  | .Regex pat _, a =>
      .ok (match a with | .strVal s => strContainsSub s pat | _ => false)
  | .Func p, a => p a
  | .In container, a => .ok (pyContains container a)
  | .ContainsKeyValue k v, a =>
      .ok (match a with | .dictVal kvs => kvs.hasKeyValue k v | _ => false)
  | .Is v, a => .ok (pyIs v a)
  | .And cs, a => Comparator.matchesAnd cs a
  | .Or cs, a => Comparator.matchesOr cs a
  | .Not c, a => do
      let b ← Comparator.matches c a
      .ok (!b)
  | .SameElementsAs exp, a => .ok (sameElementsMatch exp a)

/-- Conjunction of the clause matches, stopping at the first failure and
propagating exceptions. -/
def Comparator.matchesAnd : ComparatorList → PyVal → Except PyErr Bool
  | .nil, _ => .ok true
  | .cons c cs, a => do
      let b ← Comparator.matches c a
      if b then Comparator.matchesAnd cs a else .ok false

/-- Disjunction of the clause matches, stopping at the first success and
propagating exceptions. -/
def Comparator.matchesOr : ComparatorList → PyVal → Except PyErr Bool
  | .nil, _ => .ok false
  | .cons c cs, a => do
      let b ← Comparator.matches c a
      if b then .ok true else Comparator.matchesOr cs a

end

mutual

/-- Whether a comparator contains no `Func` anywhere: such comparators
never raise. -/
def Comparator.funcFree : Comparator → Bool
  | .Func _ => false
  | .And cs => ComparatorList.funcFree cs
  | .Or cs => ComparatorList.funcFree cs
  | .Not c => Comparator.funcFree c
  | _ => true

/-- Whether every comparator of the sequence is `Func`-free. -/
def ComparatorList.funcFree : ComparatorList → Bool
  | .nil => true
  | .cons c cs => Comparator.funcFree c && ComparatorList.funcFree cs

end

/-- Modelled from the spec: the deterministic diagnostic rendering of a
comparator.  The implicit `Equals` wrapper renders as the `repr` of its
value (so a recorded call renders its arguments); `Regex` reports its
pattern and any non-default flags. -/
def Comparator.reprStr : Comparator → String
  | .Equals v => pyRepr v
  | .IsA _ => "<is_a comparator>"
  | .IsAlmost v _ => "<is almost " ++ pyRepr v ++ ">"
  | .StrContains sub => "<str containing \x27" ++ sub ++ "\x27>"
  | .Regex pat flags =>
      "<regular expression \x27" ++ pat ++ "\x27" ++
        (if flags == 0 then "" else ", flags=" ++ toString flags) ++ ">"
  | .Func _ => "<Func>"
  | .In container => "<sequence or map containing " ++ pyRepr container ++ ">"
  | .ContainsKeyValue k v => "<map containing the entry \x27" ++ pyRepr k ++ "\x27: \x27" ++ pyRepr v ++ "\x27>"
  | .Is v => "<is " ++ pyRepr v ++ ">"
  | .And _ => "<And comparator>"
  | .Or _ => "<Or comparator>"
  | .Not _ => "<Not comparator>"
  | .SameElementsAs exp => "<sequence with same elements as \x27" ++ pyReprList exp ++ "\x27>"

/-- Modelled from the spec: `Regex` construction fails immediately with a
regex-syntax error when the pattern is invalid.  Python's syntax check is
abstracted to parenthesis balance, which suffices to reject the invalid
pattern the tests construct. -/
def regexPatternValid : List Char → Nat → Bool
  | [], depth => depth == 0
  | c :: cs, depth =>
      if c == '(' then regexPatternValid cs (depth + 1)
      else if c == ')' then
        match depth with
        | 0 => false
        | d + 1 => regexPatternValid cs d
      else regexPatternValid cs depth

/-- Modelled from the spec: the `Regex` comparator constructor, raising
`re.error` at construction time on a syntactically invalid pattern. -/
def Regex.create (pattern : String) (flags : Nat) : Except PyErr Comparator :=
  if regexPatternValid pattern.data 0 then .ok (.Regex pattern flags)
  else .error (.reError ("missing ), unterminated subpattern"))

/- ---------------------------------------------------------------------
   Value / Remember (the one stateful comparator pair)
--------------------------------------------------------------------- -/

/-- Modelled from the spec: a `Value` cell, dynamically bound at a later
time.  Before being written it compares equal to nothing at all; after
`store_value` it compares equal exactly to structurally equal values. -/
structure Value where
  value : PyVal
  has_value : Bool

/-- A fresh, unwritten cell. -/
def Value.new : Value := ⟨PyVal.noneVal, false⟩

/-- Writing the cell. -/
def Value.store_value (_c : Value) (v : PyVal) : Value := ⟨v, true⟩

/-- The cell's match test: never equal before a write, structural equality
with the stored value afterwards. -/
def Value.equalsV (c : Value) (rhs : PyVal) : Bool :=
  if c.has_value then pyEq c.value rhs else false

/-- Modelled from the spec: `Remember(value_store)` wraps a shared `Value`
cell. -/
structure Remember where
  value_store : Value

/-- `Remember`'s match test writes the actual argument into the shared
cell and always reports a match; the updated cell is returned explicitly
(the Lean rendering of Python's in-place mutation). -/
def Remember.equalsR (r : Remember) (rhs : PyVal) : Bool × Remember :=
  (true, ⟨r.value_store.store_value rhs⟩)

/- ---------------------------------------------------------------------
   Expected calls (MockMethod) and call descriptors
--------------------------------------------------------------------- -/

/-- Modelled from the spec: the declared outcome of an expected call —
a return value, a raised exception, or unset (which defaults to a return
of `None`). -/
inductive Outcome where
  | unset
  | returnValue (v : PyVal)
  | raiseException (e : PyErr)

/-- Modelled from the spec: a recorded expectation (mox's `MockMethod`):
method name, positional argument comparators, keyword argument
comparators in declaration order, declared outcome, and an optional
side-effect function over the actual positional arguments. -/
structure MockMethod where
  name : String
  params : List Comparator
  namedParams : List (String × Comparator)
  returnValue : Outcome
  sideEffects : Option (List PyVal → PyVal)

/-- A bare expected call, as built by `MockMethod(name, ...)` before the
recording invocation supplies arguments. -/
def MockMethod.new (name : String) : MockMethod :=
  ⟨name, [], [], Outcome.unset, Option.none⟩

/-- Modelled from the spec: an argument at recording time is either a
plain value or an explicit comparator. -/
inductive CallArg where
  | val (v : PyVal)
  | cmp (c : Comparator)

/-- Modelled from the spec: a plain value is wrapped in an implicit
`Equals` comparator; an explicit comparator is kept as is. -/
def CallArg.wrap : CallArg → Comparator
  | .val v => Comparator.Equals v
  | .cmp c => c

/-- Modelled from the spec: the recording invocation on an expected call,
storing the wrapped positional and keyword arguments. -/
def MockMethod.recordCall (m : MockMethod) (args : List CallArg)
    (kwargs : List (String × CallArg)) : MockMethod :=
  { m with params := args.map CallArg.wrap,
           namedParams := kwargs.map (fun p => (p.1, p.2.wrap)) }

/-- Builder mutation `AndReturn(v)` on the most recently recorded call. -/
def MockMethod.AndReturn (m : MockMethod) (v : PyVal) : MockMethod :=
  { m with returnValue := Outcome.returnValue v }

/-- Builder mutation `AndRaise(e)` on the most recently recorded call. -/
def MockMethod.AndRaise (m : MockMethod) (e : PyErr) : MockMethod :=
  { m with returnValue := Outcome.raiseException e }

/-- Builder mutation `WithSideEffects(fn)` on the most recently recorded
call. -/
def MockMethod.WithSideEffects (m : MockMethod) (f : List PyVal → PyVal) :
    MockMethod :=
  { m with sideEffects := some f }

/-- Modelled from the spec: rendering of an outcome after `->`.  An unset
outcome renders as the absence marker `None`; a declared return value
renders as its `repr`.  (A raised exception leaves the rendered return
value at `None`.) -/
def Outcome.reprStr : Outcome → String
  | .unset => "None"
  | .returnValue v => pyRepr v
  | .raiseException _ => "None"

/-- Join a list of strings with a separator (structural, kernel-friendly). -/
def joinWith (sep : String) : List String → String
  | [] => ""
  | [s] => s
  | s :: ss => s ++ sep ++ joinWith sep ss

/-- Modelled from the spec: the diagnostic rendering of an expected call,
`name(positional, kw=val, ...) -> outcome`, positional values before
keyword values, keyword values in declaration order. -/
def MockMethod.toStr (m : MockMethod) : String :=
  m.name ++ "(" ++
    joinWith (", ")
      (m.params.map Comparator.reprStr ++
        m.namedParams.map (fun p => p.1 ++ "=" ++ p.2.reprStr)) ++
    ") -> " ++ m.returnValue.reprStr

/-- Modelled from the spec: an actual invocation's call descriptor —
target name, positional values, keyword values. -/
structure MockCall where
  name : String
  params : List PyVal
  namedParams : List (String × PyVal)

/-- Rendering of an actual call for mismatch diagnostics. -/
def MockCall.toStr (c : MockCall) : String :=
  c.name ++ "(" ++
    joinWith (", ")
      (c.params.map pyRepr ++
        c.namedParams.map (fun p => p.1 ++ "=" ++ pyRepr p.2)) ++ ")"

/-- Modelled from the spec: production of an expected call's outcome at
replay time.  The first component records the actual positional arguments
the side-effect function was invoked with (`none` when no side effect is
attached); the second is the produced outcome: the declared exception, the
declared return value, or — when no return value was declared — the
side-effect's returned value (the absence marker when there is neither). -/
def MockMethod.produce (m : MockMethod) (args : List PyVal) :
    Option (List PyVal) × Except PyErr PyVal :=
  let effectArgs := m.sideEffects.map (fun _ => args)
  let effectResult := m.sideEffects.map (fun f => f args)
  match m.returnValue with
  | .raiseException e => (effectArgs, .error e)
  | .returnValue v => (effectArgs, .ok v)
  | .unset => (effectArgs, .ok (effectResult.getD PyVal.noneVal))

/- ---------------------------------------------------------------------
   Matching an actual call against an expected call
--------------------------------------------------------------------- -/

/-- Positional matching: equal lengths and each comparator matching the
corresponding actual value, exceptions propagating. -/
def matchParams : List Comparator → List PyVal → Except PyErr Bool
  | [], [] => .ok true
  | c :: cs, v :: vs => do
      let b ← c.matches v
      if b then matchParams cs vs else .ok false
  | _, _ => .ok false

/-- Removal of the binding for a key from a keyword-value list. -/
def removeNamed (key : String) : List (String × PyVal) → List (String × PyVal)
  | [] => []
  | (k, v) :: rest =>
      if k == key then rest else (k, v) :: removeNamed key rest

/-- Lookup of a key in a keyword-value list. -/
def lookupNamed (key : String) : List (String × PyVal) → Option PyVal
  | [] => Option.none
  | (k, v) :: rest => if k == key then some v else lookupNamed key rest

/-- Keyword matching: the same key set, each comparator matching its
value, exceptions propagating. -/
def matchNamedParams : List (String × Comparator) → List (String × PyVal) →
    Except PyErr Bool
  | [], vs => .ok vs.isEmpty
  | (k, c) :: ms, vs =>
      match lookupNamed k vs with
      | some v => do
          let b ← c.matches v
          if b then matchNamedParams ms (removeNamed k vs) else .ok false
      | _ => .ok false

/-- Modelled from the spec: whether an actual call matches an expected
call — same name, positionals matched pointwise, keyword mapping matched
exactly. -/
def MockMethod.matchesCall (m : MockMethod) (c : MockCall) : Except PyErr Bool :=
  if m.name == c.name then do
    let b ← matchParams m.params c.params
    if b then matchNamedParams m.namedParams c.namedParams else .ok false
  else .ok false

/- ---------------------------------------------------------------------
   The expectation queue and its groups
--------------------------------------------------------------------- -/

/-- Modelled from the spec: a queue slot — a single expected call, an
unordered group (members tagged consumed), or a multiple-times group
(members tagged satisfied). -/
inductive MockSlot where
  | single (m : MockMethod)
  | UnorderedGroup (group_name : String) (methods : List (MockMethod × Bool))
  | MultipleTimesGroup (group_name : String) (methods : List (MockMethod × Bool))

/-- Scan of an unordered group: the earliest *unconsumed* member matching
the call is marked consumed; exceptions from comparators propagate. -/
def findUnorderedMember (c : MockCall) :
    List (MockMethod × Bool) →
    Except PyErr (Option (MockMethod × List (MockMethod × Bool)))
  | [] => .ok Option.none
  | (m, consumed) :: rest =>
      if consumed then do
        let r ← findUnorderedMember c rest
        .ok (r.map (fun p => (p.1, (m, consumed) :: p.2)))
      else do
        let b ← m.matchesCall c
        if b then .ok (some (m, (m, true) :: rest))
        else do
          let r ← findUnorderedMember c rest
          .ok (r.map (fun p => (p.1, (m, false) :: p.2)))

/-- Scan of a multiple-times group: every member remains eligible
indefinitely; the earliest member matching the call is marked satisfied. -/
def findMultipleMember (c : MockCall) :
    List (MockMethod × Bool) →
    Except PyErr (Option (MockMethod × List (MockMethod × Bool)))
  | [] => .ok Option.none
  | (m, sat) :: rest => do
      let b ← m.matchesCall c
      if b then .ok (some (m, (m, true) :: rest))
      else do
        let r ← findMultipleMember c rest
        .ok (r.map (fun p => (p.1, (m, sat) :: p.2)))

/-- Modelled from the spec: the queue/group matching algorithm for one
actual call.  An empty queue fails; a single head is consumed or fails; an
unordered head consumes its earliest matching unconsumed member and is
dequeued once all members are consumed; a multiple-times head serves any
matching member without being dequeued, and on a non-matching call is
dequeued and retried against the rest only when every member has been
satisfied. -/
def stepQueue (c : MockCall) : List MockSlot →
    Except PyErr (List MockSlot × MockMethod)
  | [] =>
      .error (.UnexpectedMethodCallError ("unexpected method call " ++ c.toStr))
  | .single m :: rest => do
      let b ← m.matchesCall c
      if b then .ok (rest, m)
      else .error (.UnexpectedMethodCallError
        ("unexpected method call " ++ c.toStr ++ "; expected " ++ m.toStr))
  | .UnorderedGroup g members :: rest => do
      let r ← findUnorderedMember c members
      match r with
      | some (m, members2) =>
          if members2.all (fun p => p.2) then .ok (rest, m)
          else .ok (.UnorderedGroup g members2 :: rest, m)
      | _ =>
          .error (.UnexpectedMethodCallError
            ("unexpected method call " ++ c.toStr ++ " in unordered group " ++ g))
  | .MultipleTimesGroup g members :: rest => do
      let r ← findMultipleMember c members
      match r with
      | some (m, members2) => .ok (.MultipleTimesGroup g members2 :: rest, m)
      | _ =>
          if members.all (fun p => p.2) then stepQueue c rest
          else
            .error (.UnexpectedMethodCallError
              ("unexpected method call " ++ c.toStr ++
                " in multiple times group " ++ g))

/- ---------------------------------------------------------------------
   Lifecycle controller (per-double state) and error rendering
--------------------------------------------------------------------- -/

/-- Right-justification of an index to width 3, as Python `"%3d"`. -/
def pad3 (n : Nat) : String :=
  let s := toString n
  if s.length < 3 then String.mk (List.replicate (3 - s.length) ' ') ++ s
  else s

/-- Modelled from the spec and pinned by the tests: the string rendering
of the verify-time aggregate error — a fixed header followed by one
indexed line per unmet expected call, in order. -/
def expectedMethodCallsErrorStr (ms : List MockMethod) : String :=
  "Verify: Expected methods never called:\n" ++
    joinWith ("\n") (ms.enum.map (fun p => pad3 p.1 ++ ".  " ++ p.2.toStr))

/-- Carrier of a successfully constructed aggregate error. -/
structure ExpectedMethodCallsErrorData where
  expected_methods : List MockMethod

/-- Modelled from the spec: constructing the aggregate error requires at
least one unmet expectation; constructing it with zero raises a
`ValueError` at construction time. -/
def ExpectedMethodCallsError.create (ms : List MockMethod) :
    Except PyErr ExpectedMethodCallsErrorData :=
  if ms.isEmpty then
    .error (.ValueError ("There must be at least one expected method"))
  else .ok ⟨ms⟩

/-- Rendering of a swallowed-exception report. -/
def swallowedStr (es : List PyErr) : String :=
  toString es.length ++ " raised exceptions were swallowed"

/-- Modelled from the spec: the per-double lifecycle state during replay —
the frozen expectation queue and the tainted latch, a list of mismatch
errors observed so far (mox's `_exceptions_thrown`). -/
structure MockAnything where
  expected_calls_queue : List MockSlot
  exceptions_thrown : List PyErr

/-- Modelled from the spec: replay of one actual call.  A mismatch latches
the raised `UnexpectedMethodCallError` into the tainted list before the
error surfaces; a successful match consumes the queue and produces the
matched expectation's outcome. -/
def MockAnything.callMethod (s : MockAnything) (c : MockCall) :
    MockAnything × Except PyErr PyVal :=
  match stepQueue c s.expected_calls_queue with
  | .error e =>
      (if e.isUnexpectedCall then
        { s with exceptions_thrown := s.exceptions_thrown ++ [e] }
      else s, .error e)
  | .ok (q2, m) =>
      ({ s with expected_calls_queue := q2 }, (m.produce c.params).2)

/-- The unmet expectations of a slot: a pending single call, or the
unconsumed / unsatisfied members of a group. -/
def MockSlot.unsatisfied : MockSlot → List MockMethod
  | .single m => [m]
  | .UnorderedGroup _ members =>
      (members.filter (fun p => !p.2)).map Prod.fst
  | .MultipleTimesGroup _ members =>
      (members.filter (fun p => !p.2)).map Prod.fst

/-- All unmet expectations of a queue, in order. -/
def unsatisfiedCalls (q : List MockSlot) : List MockMethod :=
  (q.map MockSlot.unsatisfied).flatten

/-- Modelled from the spec: verify.  The tainted latch is consulted first —
any swallowed mismatch makes verify fail with `SwallowedExceptionError`;
otherwise verify succeeds exactly when no unmet expectation remains, and
fails with the aggregate error enumerating the unmet expectations. -/
def MockAnything.Verify (s : MockAnything) : Except PyErr Unit :=
  if s.exceptions_thrown.isEmpty then
    match unsatisfiedCalls s.expected_calls_queue with
    | [] => .ok ()
    | m :: ms =>
        .error (.ExpectedMethodCallsError (expectedMethodCallsErrorStr (m :: ms)))
  else .error (.SwallowedExceptionError (swallowedStr s.exceptions_thrown))

/-- Replay of a sequence of actual calls, stopping at (and reporting) the
first raised error. -/
def runCalls (s : MockAnything) : List MockCall → MockAnything × Option PyErr
  | [] => (s, Option.none)
  | c :: cs =>
      match s.callMethod c with
      | (s2, .ok _) => runCalls s2 cs
      | (s2, .error e) => (s2, some e)

/-- Whether verify succeeds on a state. -/
def MockAnything.verifyOk (s : MockAnything) : Bool :=
  match s.Verify with
  | .ok _ => true
  | _ => false

/-- Whether an optional replay error is an `UnexpectedMethodCallError`. -/
def optErrIsUnexpected : Option PyErr → Bool
  | some e => e.isUnexpectedCall
  | _ => false

/- ---------------------------------------------------------------------
   Concrete scenarios from the test suite, and iterated stepping
--------------------------------------------------------------------- -/

/-- Iterated application of the queue matcher to the same call,
discarding produced outcomes (pure matching behaviour). -/
def stepN (c : MockCall) : Nat → List MockSlot → Except PyErr (List MockSlot)
  | 0, q => .ok q
  | n + 1, q =>
      match stepQueue c q with
      | .error e => .error e
      | .ok (q2, _) => stepN c n q2

/-- The expected call `testMethod(1, 2) -> 'output'` of the aggregate
error tests. -/
def exampleMethod : MockMethod :=
  ((MockMethod.new ("testMethod")).recordCall
    [CallArg.val (.intVal 1), CallArg.val (.intVal 2)] []).AndReturn
      (.strVal ("output"))

/-- The expected call `testMethod(a=1, b=2, c='only named')`. -/
def namedOnlyMethod : MockMethod :=
  (MockMethod.new ("testMethod")).recordCall []
    [("a", CallArg.val (.intVal 1)), ("b", CallArg.val (.intVal 2)),
      ("c", CallArg.val (.strVal ("only named")))]

/-- The expected call `testMethod2() -> 44`. -/
def noArgsReturn44Method : MockMethod :=
  ((MockMethod.new ("testMethod2")).recordCall [] []).AndReturn (.intVal 44)

/-- The four unmet expectations of the `testManyErrors` scenario. -/
def manyMethods : List MockMethod :=
  [exampleMethod, namedOnlyMethod, noArgsReturn44Method, exampleMethod]

/-- An expected call with no arguments. -/
def mkMethod0 (name : String) : MockMethod :=
  (MockMethod.new name).recordCall [] []

/-- An expected call with one integer argument. -/
def mkMethod1 (name : String) (k : Int) : MockMethod :=
  (MockMethod.new name).recordCall [CallArg.val (.intVal k)] []

/-- An actual call with no arguments. -/
def mkCall0 (name : String) : MockCall := ⟨name, [], []⟩

/-- An actual call with one integer argument. -/
def mkCall1 (name : String) (k : Int) : MockCall := ⟨name, [.intVal k], []⟩

/-- The queue of the multiple-times liveness scenario: the group
`\x7bMethod(1), Method(3)\x7d` followed by a plain `Method(4)`. -/
def multipleTimesQueue : List MockSlot :=
  [ .MultipleTimesGroup ("group")
      [(mkMethod1 ("Method") 1, false), (mkMethod1 ("Method") 3, false)],
    .single (mkMethod1 ("Method") 4) ]

/-- The queue of the two-unordered-groups scenario: group
`\x7bMethod(1), Method(2)\x7d` followed by group `\x7bFoo(), Bar()\x7d`. -/
def twoUnorderedQueue : List MockSlot :=
  [ .UnorderedGroup ("default")
      [(mkMethod1 ("Method") 1, false), (mkMethod1 ("Method") 2, false)],
    .UnorderedGroup ("group2")
      [(mkMethod0 ("Foo"), false), (mkMethod0 ("Bar"), false)] ]

/-- Modelled from the spec: the `IsAlmost` constructor with its default
`places`. -/
def IsAlmost.create (value : PyVal) : Comparator :=
  Comparator.IsAlmost value isAlmostDefaultPlaces

/-- The actual argument list of the side-effect scenarios (the mutable
list `['original']`). -/
def sideEffectArgs0 : List PyVal := [.listVal (PyList.ofList [.strVal ("original")])]

/-- The side-effect modifier returning `'expected_return'`. -/
def modifierWithReturn : List PyVal → PyVal := fun _ => .strVal ("expected_return")

/-- The side-effect modifier returning `'unexpected_return'`. -/
def modifierWithUnexpectedReturn : List PyVal → PyVal :=
  fun _ => .strVal ("unexpected_return")

/-- The recorded expected call of the side-effect scenarios. -/
def sideEffectBase : MockMethod :=
  (MockMethod.new ("testMethod")).recordCall
    [CallArg.val (.listVal (PyList.ofList [.strVal ("original")]))] []

/-- The test suite's validating predicate that raises unless its argument
is `1` (the `Func` exception-propagation scenario). -/
def raiseExceptionOnNotOne : PyVal → Except PyErr Bool :=
  fun v => if pyEq v (.intVal 1) then .ok true else .error (.testException 0)

/- ---------------------------------------------------------------------
   Helper lemmas
--------------------------------------------------------------------- -/

/-- Unfolding of the unmet-call collection over a leading single slot. -/
theorem unsatisfied_cons_single (m : MockMethod) (rest : List MockSlot) :
    unsatisfiedCalls (MockSlot.single m :: rest) = m :: unsatisfiedCalls rest := by
  simp [unsatisfiedCalls, MockSlot.unsatisfied]

/-- A queue of single slots has exactly its methods unmet. -/
theorem unsatisfied_singles (ms : List MockMethod) :
    unsatisfiedCalls (ms.map MockSlot.single) = ms := by
  induction ms with
  | nil => rfl
  | cons m ms ih => simpa [unsatisfiedCalls, MockSlot.unsatisfied] using ih

/-- Appending an element never yields the empty list (isEmpty form). -/
theorem isEmpty_append_singleton (xs : List PyErr) (e : PyErr) :
    (xs ++ [e]).isEmpty = false := by
  cases xs <;> rfl

/- ---------------------------------------------------------------------
   C1
--------------------------------------------------------------------- -/

/-- C1: on a queue of pending single expected calls, `Verify` succeeds iff
the queue is empty; when it fails it carries exactly the aggregate
rendering of the pending calls; and that rendering enumerates each unmet
call in order as an indexed line — pinned exactly on the one-error
scenario (`testMethod(1, 2) -> 'output'`) and the four-error scenario of
the test suite. -/
theorem verify_emptiness_and_error_rendering :
    (∀ ms : List MockMethod,
      (MockAnything.mk (ms.map MockSlot.single) []).verifyOk = true ↔ ms = []) ∧
    (∀ (m : MockMethod) (ms : List MockMethod),
      (MockAnything.mk ((m :: ms).map MockSlot.single) []).Verify =
        .error (.ExpectedMethodCallsError (expectedMethodCallsErrorStr (m :: ms)))) ∧
    expectedMethodCallsErrorStr [exampleMethod] =
      "Verify: Expected methods never called:\n  0.  testMethod(1, 2) -> \x27output\x27" ∧
    expectedMethodCallsErrorStr manyMethods =
      "Verify: Expected methods never called:\n  0.  testMethod(1, 2) -> \x27output\x27\n  1.  testMethod(a=1, b=2, c=\x27only named\x27) -> None\n  2.  testMethod2() -> 44\n  3.  testMethod(1, 2) -> \x27output\x27" := by
  refine ⟨?_, ?_, by decide, by decide⟩
  · intro ms
    cases ms with
    | nil =>
        simp [MockAnything.verifyOk, MockAnything.Verify, unsatisfiedCalls]
    | cons m ms =>
        simp [MockAnything.verifyOk, MockAnything.Verify,
          unsatisfied_cons_single, unsatisfied_singles]
  · intro m ms
    simp [MockAnything.Verify, unsatisfied_cons_single, unsatisfied_singles]

/- ---------------------------------------------------------------------
   C2
--------------------------------------------------------------------- -/

/-- C2: a mismatched call that raised `UnexpectedMethodCallError` latches
the tainted flag of the double, so a subsequent `Verify` fails with
`SwallowedExceptionError` no matter whether the caller caught and
swallowed the raised error, and independent of the remaining queue. -/
theorem swallowed_mismatch_still_fails_verify :
    ∀ (s : MockAnything) (c : MockCall) (e : PyErr),
      stepQueue c s.expected_calls_queue = .error e →
      e.isUnexpectedCall = true →
      (s.callMethod c).2 = .error e ∧
        ∃ msg, ((s.callMethod c).1).Verify =
          .error (.SwallowedExceptionError msg) := by
  intro s c e hstep hune
  have h1 : s.callMethod c =
      ({ s with exceptions_thrown := s.exceptions_thrown ++ [e] }, .error e) := by
    unfold MockAnything.callMethod
    rw [hstep]
    simp [hune]
  refine ⟨by rw [h1], swallowedStr (s.exceptions_thrown ++ [e]), ?_⟩
  rw [h1]
  unfold MockAnything.Verify
  simp [isEmpty_append_singleton]

/-- Witness for C2: the `testSwallowedUnexpectedMethodCall_WrongMethod`
scenario — `Open()` is expected and called, a swallowed `Close()`
mismatch follows, and `Verify` then fails with
`SwallowedExceptionError`. -/
theorem swallowed_mismatch_still_fails_verify_witness :
    ((((MockAnything.mk [MockSlot.single (mkMethod0 ("Open"))] []).callMethod
        (mkCall0 ("Open"))).1).callMethod (mkCall0 ("Close"))).2 =
      .error (.UnexpectedMethodCallError ("unexpected method call Close()")) ∧
    ∃ msg,
      (((((MockAnything.mk [MockSlot.single (mkMethod0 ("Open"))] []).callMethod
          (mkCall0 ("Open"))).1).callMethod (mkCall0 ("Close"))).1).Verify =
        .error (.SwallowedExceptionError msg) :=
  swallowed_mismatch_still_fails_verify _ (mkCall0 ("Close")) _ rfl rfl

/- ---------------------------------------------------------------------
   C4
--------------------------------------------------------------------- -/

/-- C4: a fresh `Value` cell compares unequal to every value (absence
markers included); comparing `Remember` over the cell against any actual
value reports a match and stores the value; afterwards the cell compares
equal to that value. -/
theorem value_remember_lifecycle :
    ∀ x : PyVal,
      Value.new.equalsV x = false ∧
      ((Remember.mk Value.new).equalsR x).1 = true ∧
      (((Remember.mk Value.new).equalsR x).2.value_store).equalsV x = true := by
  intro x
  refine ⟨rfl, rfl, ?_⟩
  simp [Remember.equalsR, Value.store_value, Value.equalsV, Value.new, pyEq]

/- ---------------------------------------------------------------------
   C5
--------------------------------------------------------------------- -/

/-- C5: with both a side-effect function and `AndReturn y`, replay
invokes the side effect on the actual arguments and returns `y`; with
only the side effect (outcome unset), the same invocation returns the
side effect's own return value. -/
theorem side_effect_precedence :
    ∀ (m : MockMethod) (f : List PyVal → PyVal) (y : PyVal) (args : List PyVal),
      (((m.WithSideEffects f).AndReturn y).produce args = (some args, .ok y)) ∧
      (m.returnValue = Outcome.unset →
        (m.WithSideEffects f).produce args = (some args, .ok (f args))) := by
  intro m f y args
  constructor
  · rfl
  · intro h
    simp [MockMethod.WithSideEffects, MockMethod.produce, h]

/-- Witness for C5: the `testWithReturningSideEffects` scenarios — a
modifier returning `'unexpected_return'` is overridden by
`AndReturn('expected_return')`, and a modifier returning
`'expected_return'` is propagated when no return value is declared. -/
theorem side_effect_precedence_witness :
    (((sideEffectBase.WithSideEffects modifierWithUnexpectedReturn).AndReturn
        (.strVal ("expected_return"))).produce sideEffectArgs0 =
      (some sideEffectArgs0, .ok (.strVal ("expected_return")))) ∧
    ((sideEffectBase.WithSideEffects modifierWithReturn).produce sideEffectArgs0 =
      (some sideEffectArgs0, .ok (.strVal ("expected_return")))) :=
  ⟨(side_effect_precedence sideEffectBase modifierWithUnexpectedReturn
      (.strVal ("expected_return")) sideEffectArgs0).1,
    (side_effect_precedence sideEffectBase modifierWithReturn
      (.strVal ("expected_return")) sideEffectArgs0).2 rfl⟩

/- ---------------------------------------------------------------------
   C7
--------------------------------------------------------------------- -/

/-- C7: construction-time errors raise at declaration — `Regex` with the
invalid pattern `(a|b` fails at construction with a regex-syntax error
(and any syntactically invalid pattern does), a valid pattern constructs
the comparator, and the aggregate error refuses an empty expectation list
with a `ValueError` while accepting any non-empty list. -/
theorem construction_time_errors :
    Regex.create ("(a|b") 0 =
      .error (.reError ("missing ), unterminated subpattern")) ∧
    (∀ (pattern : String) (flags : Nat), regexPatternValid pattern.data 0 = false →
      ∃ msg, Regex.create pattern flags = .error (.reError msg)) ∧
    (∀ (pattern : String) (flags : Nat), regexPatternValid pattern.data 0 = true →
      Regex.create pattern flags = .ok (.Regex pattern flags)) ∧
    ExpectedMethodCallsError.create [] =
      .error (.ValueError ("There must be at least one expected method")) ∧
    (∀ ms : List MockMethod, ms ≠ [] →
      ∃ d, ExpectedMethodCallsError.create ms = .ok d) := by
  refine ⟨rfl, ?_, ?_, rfl, ?_⟩
  · intro p fl h
    refine ⟨"missing ), unterminated subpattern", ?_⟩
    simp [Regex.create, h]
  · intro p fl h
    simp [Regex.create, h]
  · intro ms h
    cases ms with
    | nil => exact absurd rfl h
    | cons m ms =>
        exact ⟨⟨m :: ms⟩, by simp [ExpectedMethodCallsError.create]⟩

/-- Witness for C7: the valid pattern `ab` constructs, and a singleton
expectation list constructs the aggregate error. -/
theorem construction_time_errors_witness :
    regexPatternValid ("ab").data 0 = true ∧
    Regex.create ("ab") 0 = .ok (.Regex ("ab") 0) ∧
    ∃ d, ExpectedMethodCallsError.create [exampleMethod] = .ok d :=
  ⟨rfl, construction_time_errors.2.2.1 ("ab") 0 rfl,
    construction_time_errors.2.2.2.2 [exampleMethod] (by simp)⟩

/-- Reduction of a monadic bind over a successful `Except`. -/
theorem except_ok_bind {ε α β : Type} (a : α) (f : α → Except ε β) :
    (Except.ok (ε := ε) a >>= f) = f a := rfl

/-- Reduction of a monadic bind over a failed `Except`. -/
theorem except_error_bind {ε α β : Type} (e : ε) (f : α → Except ε β) :
    (Except.error (α := α) e >>= f) = Except.error (α := β) e := rfl

/- ---------------------------------------------------------------------
   C9
--------------------------------------------------------------------- -/

/-- C9: external order is strict — a single head slot either consumes
itself or rejects the call (nothing deeper in the queue is consulted),
and an unordered head group with no matching unconsumed member rejects
the call; concretely, a member of a later group is rejected while an
earlier slot is unsatisfied, and an unexpected call against a pending
single expectation is rejected. -/
theorem strict_order_of_slots :
    (∀ (m : MockMethod) (rest : List MockSlot) (c : MockCall),
      m.matchesCall c = .ok false →
      ∃ msg, stepQueue c (.single m :: rest) =
        .error (.UnexpectedMethodCallError msg)) ∧
    (∀ (m : MockMethod) (rest : List MockSlot) (c : MockCall)
        (q2 : List MockSlot) (m2 : MockMethod),
      stepQueue c (.single m :: rest) = .ok (q2, m2) → m2 = m ∧ q2 = rest) ∧
    (∀ (g : String) (members : List (MockMethod × Bool)) (rest : List MockSlot)
        (c : MockCall),
      findUnorderedMember c members = .ok Option.none →
      ∃ msg, stepQueue c (.UnorderedGroup g members :: rest) =
        .error (.UnexpectedMethodCallError msg)) ∧
    optErrIsUnexpected (runCalls ⟨twoUnorderedQueue, []⟩
      [mkCall1 ("Method") 2, mkCall0 ("Bar")]).2 = true ∧
    optErrIsUnexpected (runCalls ⟨[.single (mkMethod0 ("ValidCall"))], []⟩
      [mkCall0 ("OtherValidCall")]).2 = true := by
  refine ⟨?_, ?_, ?_, by decide, by decide⟩
  · intro m rest c h
    refine ⟨"unexpected method call " ++ c.toStr ++ "; expected " ++ m.toStr, ?_⟩
    simp [stepQueue, h, except_ok_bind]
  · intro m rest c q2 m2 hok
    cases hb : m.matchesCall c with
    | error e => simp [stepQueue, hb, except_error_bind] at hok
    | ok b =>
        cases b with
        | false => simp [stepQueue, hb, except_ok_bind] at hok
        | true =>
            simp [stepQueue, hb, except_ok_bind] at hok
            exact ⟨hok.2.symm, hok.1.symm⟩
  · intro g members rest c h
    refine ⟨"unexpected method call " ++ c.toStr ++ " in unordered group " ++ g, ?_⟩
    simp [stepQueue, h, except_ok_bind]

/-- Witness for C9: the rejecting conjuncts applied to the pending
`ValidCall()` expectation and the unordered group of `Foo()`. -/
theorem strict_order_of_slots_witness :
    (∃ msg, stepQueue (mkCall0 ("OtherValidCall"))
      [.single (mkMethod0 ("ValidCall"))] =
        .error (.UnexpectedMethodCallError msg)) ∧
    (∃ msg, stepQueue (mkCall1 ("Method") 5)
      [.UnorderedGroup ("group2") [(mkMethod0 ("Foo"), false)]] =
        .error (.UnexpectedMethodCallError msg)) :=
  ⟨strict_order_of_slots.1 (mkMethod0 ("ValidCall")) []
      (mkCall0 ("OtherValidCall")) rfl,
    strict_order_of_slots.2.2.1 ("group2") [(mkMethod0 ("Foo"), false)] []
      (mkCall1 ("Method") 5) rfl⟩

/- ---------------------------------------------------------------------
   C3 helper lemmas
--------------------------------------------------------------------- -/

/-- A successful multiple-times scan preserves the member methods (only
a satisfied flag flips). -/
theorem findMultiple_fst (c : MockCall) :
    ∀ (members members2 : List (MockMethod × Bool)) (m : MockMethod),
      findMultipleMember c members = .ok (some (m, members2)) →
      members2.map Prod.fst = members.map Prod.fst := by
  intro members
  induction members with
  | nil => intro members2 m h; simp [findMultipleMember] at h
  | cons p ps ih =>
      intro members2 m h
      obtain ⟨m0, s0⟩ := p
      cases hb : m0.matchesCall c with
      | error e => simp [findMultipleMember, hb, except_error_bind] at h
      | ok b =>
          cases b with
          | true =>
              simp [findMultipleMember, hb, except_ok_bind] at h
              obtain ⟨h1, h2⟩ := h
              rw [← h2]
              simp
          | false =>
              cases hr : findMultipleMember c ps with
              | error e =>
                  simp [findMultipleMember, hb, hr, except_ok_bind,
                    except_error_bind] at h
              | ok r =>
                  cases r with
                  | none =>
                      simp [findMultipleMember, hb, hr, except_ok_bind] at h
                  | some pr =>
                      obtain ⟨m9, members9⟩ := pr
                      simp [findMultipleMember, hb, hr, except_ok_bind] at h
                      obtain ⟨h1, h2⟩ := h
                      rw [← h2]
                      simpa using ih members9 m9 hr

/-- When every member's match test is exception-free and some member
matches, the multiple-times scan finds a member. -/
theorem findMultiple_some (c : MockCall) :
    ∀ (members : List (MockMethod × Bool)),
      (∀ p ∈ members, ∃ b, (Prod.fst p).matchesCall c = .ok b) →
      (∃ p ∈ members, (Prod.fst p).matchesCall c = .ok true) →
      ∃ m members2, findMultipleMember c members = .ok (some (m, members2)) := by
  intro members
  induction members with
  | nil =>
      intro _ hsome
      rcases hsome with ⟨p, hp, _⟩
      exact absurd hp (List.not_mem_nil p)
  | cons p ps ih =>
      intro hall hsome
      obtain ⟨m0, s0⟩ := p
      obtain ⟨b0, hb0⟩ := hall (m0, s0) (List.mem_cons_self _ _)
      cases b0 with
      | true =>
          exact ⟨m0, (m0, true) :: ps,
            by simp [findMultipleMember, hb0, except_ok_bind]⟩
      | false =>
          have hsome2 : ∃ p ∈ ps, (Prod.fst p).matchesCall c = .ok true := by
            rcases hsome with ⟨q, hq, hqt⟩
            rcases List.mem_cons.mp hq with h | h
            · rw [h] at hqt
              rw [hb0] at hqt
              simp at hqt
            · exact ⟨q, h, hqt⟩
          have hall2 : ∀ p ∈ ps, ∃ b, (Prod.fst p).matchesCall c = .ok b :=
            fun p hp => hall p (List.mem_cons_of_mem _ hp)
          obtain ⟨m, members2, hfind⟩ := ih hall2 hsome2
          exact ⟨m, (m0, s0) :: members2,
            by simp [findMultipleMember, hb0, hfind, except_ok_bind]⟩

/-- Transfer of a per-method property along equality of the method lists. -/
theorem all_fst_transfer (P : MockMethod → Prop)
    {l1 l2 : List (MockMethod × Bool)}
    (h : l2.map Prod.fst = l1.map Prod.fst)
    (hp : ∀ p ∈ l1, P (Prod.fst p)) : ∀ p ∈ l2, P (Prod.fst p) := by
  intro p hp2
  have hm : (Prod.fst p) ∈ l2.map Prod.fst := List.mem_map_of_mem _ hp2
  rw [h] at hm
  obtain ⟨q, hq, hqe⟩ := List.mem_map.mp hm
  exact hqe ▸ hp q hq

/-- Transfer of a per-method existence along equality of the method
lists. -/
theorem exists_fst_transfer (P : MockMethod → Prop)
    {l1 l2 : List (MockMethod × Bool)}
    (h : l2.map Prod.fst = l1.map Prod.fst) :
    (∃ p ∈ l1, P (Prod.fst p)) → ∃ p ∈ l2, P (Prod.fst p) := by
  rintro ⟨p, hp, hP⟩
  have hm : (Prod.fst p) ∈ l1.map Prod.fst := List.mem_map_of_mem _ hp
  rw [← h] at hm
  obtain ⟨q, hq, hqe⟩ := List.mem_map.mp hm
  exact ⟨q, hq, hqe ▸ hP⟩

/-- One matching step against a multiple-times head serves the call and
keeps the group at the head of the queue. -/
theorem stepQueue_mt_step (g : String) (members : List (MockMethod × Bool))
    (rest : List MockSlot) (c : MockCall)
    (hall : ∀ p ∈ members, ∃ b, (Prod.fst p).matchesCall c = .ok b)
    (hsome : ∃ p ∈ members, (Prod.fst p).matchesCall c = .ok true) :
    ∃ m members2,
      stepQueue c (.MultipleTimesGroup g members :: rest) =
        .ok (.MultipleTimesGroup g members2 :: rest, m) ∧
      members2.map Prod.fst = members.map Prod.fst := by
  obtain ⟨m, members2, hfind⟩ := findMultiple_some c members hall hsome
  exact ⟨m, members2, by simp [stepQueue, hfind, except_ok_bind],
    findMultiple_fst c members members2 m hfind⟩

/- ---------------------------------------------------------------------
   C3
--------------------------------------------------------------------- -/

/-- C3: multiple-times group semantics — in the concrete scenario (group
`\x7bMethod(1), Method(3)\x7d` then plain `Method(4)`) the sequence
`Method(3), Method(3), Method(4)` fails with `UnexpectedMethodCallError`
while `Method(1), Method(3), Method(4)` succeeds and verifies; in
general, once some member matches a call the group serves it any number
of times without being dequeued (the member methods are preserved, so
repeats stay accepted for every `n`), and while any member is
unsatisfied the group is never dequeued: a successful step keeps the
group at the head and a non-matching call is rejected. -/
theorem multiple_times_group_semantics :
    optErrIsUnexpected (runCalls ⟨multipleTimesQueue, []⟩
      [mkCall1 ("Method") 3, mkCall1 ("Method") 3, mkCall1 ("Method") 4]).2 = true ∧
    (runCalls ⟨multipleTimesQueue, []⟩
      [mkCall1 ("Method") 1, mkCall1 ("Method") 3, mkCall1 ("Method") 4]).2 =
      Option.none ∧
    ((runCalls ⟨multipleTimesQueue, []⟩
      [mkCall1 ("Method") 1, mkCall1 ("Method") 3,
        mkCall1 ("Method") 4]).1).verifyOk = true ∧
    (∀ (g : String) (members : List (MockMethod × Bool)) (rest : List MockSlot)
        (c : MockCall),
      (∀ p ∈ members, ∃ b, (Prod.fst p).matchesCall c = .ok b) →
      (∃ p ∈ members, (Prod.fst p).matchesCall c = .ok true) →
      ∀ n, ∃ members2,
        stepN c n (.MultipleTimesGroup g members :: rest) =
          .ok (.MultipleTimesGroup g members2 :: rest) ∧
        members2.map Prod.fst = members.map Prod.fst) ∧
    (∀ (g : String) (members : List (MockMethod × Bool)) (rest : List MockSlot)
        (c : MockCall) (q2 : List MockSlot) (m : MockMethod),
      members.all (fun p => p.2) = false →
      stepQueue c (.MultipleTimesGroup g members :: rest) = .ok (q2, m) →
      ∃ members2, q2 = .MultipleTimesGroup g members2 :: rest ∧
        members2.map Prod.fst = members.map Prod.fst) ∧
    (∀ (g : String) (members : List (MockMethod × Bool)) (rest : List MockSlot)
        (c : MockCall),
      members.all (fun p => p.2) = false →
      findMultipleMember c members = .ok Option.none →
      ∃ msg, stepQueue c (.MultipleTimesGroup g members :: rest) =
        .error (.UnexpectedMethodCallError msg)) := by
  refine ⟨by decide, by decide, by decide, ?_, ?_, ?_⟩
  · intro g members rest c hall hsome n
    induction n generalizing members with
    | zero => exact ⟨members, rfl, rfl⟩
    | succ n ih =>
        obtain ⟨m, members2, hstep, hfst⟩ :=
          stepQueue_mt_step g members rest c hall hsome
        have hall2 := all_fst_transfer
          (fun m => ∃ b, m.matchesCall c = Except.ok b) hfst hall
        have hsome2 := exists_fst_transfer
          (fun m => m.matchesCall c = Except.ok true) hfst hsome
        obtain ⟨members3, hsn, hfst3⟩ := ih members2 hall2 hsome2
        refine ⟨members3, ?_, hfst3.trans hfst⟩
        simp [stepN, hstep, hsn]
  · intro g members rest c q2 m hns hok
    cases hr : findMultipleMember c members with
    | error e => simp [stepQueue, hr, except_error_bind] at hok
    | ok r =>
        cases r with
        | none => simp [stepQueue, hr, hns, except_ok_bind] at hok
        | some pr =>
            obtain ⟨m9, members9⟩ := pr
            simp [stepQueue, hr, except_ok_bind] at hok
            exact ⟨members9, hok.1.symm,
              findMultiple_fst c members members9 m9 hr⟩
  · intro g members rest c hns hnone
    refine ⟨"unexpected method call " ++ c.toStr ++
      " in multiple times group " ++ g, ?_⟩
    simp [stepQueue, hnone, hns, except_ok_bind]

/-- Witness for C3: the unbounded-repetition conjunct applied to a
one-member group matched three times by the same call, and the
keep-at-head conjunct applied to the two-member scenario group on a
`Method(3)` call. -/
theorem multiple_times_group_semantics_witness :
    (∃ members2,
      stepN (mkCall1 ("Method") 3) 3
        [MockSlot.MultipleTimesGroup ("group") [(mkMethod1 ("Method") 3, false)]] =
        .ok [MockSlot.MultipleTimesGroup ("group") members2] ∧
      members2.map Prod.fst = [mkMethod1 ("Method") 3]) ∧
    (∃ members2,
      (MockSlot.MultipleTimesGroup ("group")
          [(mkMethod1 ("Method") 1, true), (mkMethod1 ("Method") 3, false)] ::
        ([] : List MockSlot)) = .MultipleTimesGroup ("group") members2 :: [] ∧
      members2.map Prod.fst =
        [mkMethod1 ("Method") 1, mkMethod1 ("Method") 3]) := by
  constructor
  · have h := multiple_times_group_semantics.2.2.2.1 ("group")
      [(mkMethod1 ("Method") 3, false)] [] (mkCall1 ("Method") 3)
      (by
        intro p hp
        simp at hp
        rw [hp]
        exact ⟨true, rfl⟩)
      ⟨(mkMethod1 ("Method") 3, false), by simp, rfl⟩ 3
    simpa using h
  · have h := multiple_times_group_semantics.2.2.2.2.1 ("group")
      [(mkMethod1 ("Method") 1, false), (mkMethod1 ("Method") 3, false)] []
      (mkCall1 ("Method") 3)
      (MockSlot.MultipleTimesGroup ("group")
        [(mkMethod1 ("Method") 1, false), (mkMethod1 ("Method") 3, true)] :: [])
      (mkMethod1 ("Method") 3) (by decide) rfl
    obtain ⟨members2, h1, h2⟩ := h
    exact ⟨[(mkMethod1 ("Method") 1, true), (mkMethod1 ("Method") 3, false)],
      rfl, rfl⟩

/- ---------------------------------------------------------------------
   C6
--------------------------------------------------------------------- -/

/-- The cross-multiplied integer inequality computed by `isAlmostMatches`
is exactly the rational inequality `|a - e| < 0.5 * 10 ^ (-p)`. -/
theorem isAlmost_cross_iff (e a : ℚ) (p : Nat) :
    ((a.num * (e.den : Int) - e.num * (a.den : Int)).natAbs * (2 * 10 ^ p) <
      a.den * e.den) ↔ |a - e| < 1 / (2 * (10 : ℚ) ^ p) := by
  have had : (0 : ℚ) < (a.den : ℚ) := by exact_mod_cast a.den_pos
  have hed : (0 : ℚ) < (e.den : ℚ) := by exact_mod_cast e.den_pos
  have ht : (0 : ℚ) < 2 * (10 : ℚ) ^ p := by positivity
  have hB : ((a.den : ℚ)) ≠ 0 := ne_of_gt had
  have hD : ((e.den : ℚ)) ≠ 0 := ne_of_gt hed
  have key : a - e =
      (((a.num * e.den - e.num * a.den : ℤ) : ℚ)) /
        ((a.den : ℚ) * (e.den : ℚ)) := by
    calc a - e = (a.num : ℚ) / (a.den : ℚ) - (e.num : ℚ) / (e.den : ℚ) := by
          rw [Rat.num_div_den, Rat.num_div_den]
      _ = (((a.num * e.den - e.num * a.den : ℤ) : ℚ)) /
            ((a.den : ℚ) * (e.den : ℚ)) := by
          rw [div_sub_div _ _ hB hD]
          push_cast
          ring_nf
  rw [key, abs_div,
    abs_of_pos (show (0 : ℚ) < (a.den : ℚ) * (e.den : ℚ) by positivity),
    div_lt_div_iff₀ (by positivity) ht, one_mul, ← Int.cast_abs]
  constructor
  · intro h
    have h3 : ((((a.num * (e.den : Int) - e.num * (a.den : Int)).natAbs : ℕ) : ℤ)) *
        ((2 * 10 ^ p : ℕ) : ℤ) < ((a.den * e.den : ℕ) : ℤ) := by exact_mod_cast h
    rw [Int.natCast_natAbs] at h3
    exact_mod_cast h3
  · intro h
    have h3 : |a.num * (e.den : Int) - e.num * (a.den : Int)| *
        ((2 * 10 ^ p : ℕ) : ℤ) < ((a.den * e.den : ℕ) : ℤ) := by exact_mod_cast h
    rw [← Int.natCast_natAbs] at h3
    exact_mod_cast h3

/-- C6: `IsAlmost(e, places)` never raises and matches `a` exactly when
both operands are numeric and `|a - e| < 0.5 * 10 ^ (-places)`; a
non-numeric operand on either side never matches; and the constructor's
default `places` is 7. -/
theorem isalmost_semantics :
    (∀ (e a : PyVal) (places : Nat),
      (Comparator.IsAlmost e places).matches a = .ok (isAlmostMatches e places a)) ∧
    (∀ (e a : PyVal) (places : Nat) (qe qa : ℚ),
      pyToRat e = some qe → pyToRat a = some qa →
      (isAlmostMatches e places a = true ↔
        |qa - qe| < 1 / (2 * (10 : ℚ) ^ places))) ∧
    (∀ (e a : PyVal) (places : Nat),
      pyToRat e = Option.none ∨ pyToRat a = Option.none →
      isAlmostMatches e places a = false) ∧
    (∀ v : PyVal, IsAlmost.create v = Comparator.IsAlmost v 7) := by
  refine ⟨fun e a places => rfl, ?_, ?_, fun v => rfl⟩
  · intro e a places qe qa he ha
    simp only [isAlmostMatches, he, ha, decide_eq_true_eq]
    exact isAlmost_cross_iff qe qa places
  · intro e a places h
    cases h with
    | inl h => simp [isAlmostMatches, h]
    | inr h => cases hpe : pyToRat e <;> simp [isAlmostMatches, hpe, h]

/-- Witness for C6: the test suite's numbers — `1.8999999999` is almost
`1.9` at the default 7 places (with the rational inequality obtained
through the theorem), `1.899` is not at 7 places but is at 2 places, and
a numeric string never matches. -/
theorem isalmost_semantics_witness :
    (isAlmostMatches (.floatVal (Rat.mk' 18999999999 10000000000)) 7
        (.floatVal (Rat.mk' 19 10)) = true ∧
      |(Rat.mk' 19 10 : ℚ) - Rat.mk' 18999999999 10000000000| <
        1 / (2 * (10 : ℚ) ^ (7 : Nat))) ∧
    isAlmostMatches (.floatVal (Rat.mk' 1899 1000)) 7
      (.floatVal (Rat.mk' 19 10)) = false ∧
    isAlmostMatches (.floatVal (Rat.mk' 1899 1000)) 2
      (.floatVal (Rat.mk' 19 10)) = true ∧
    isAlmostMatches (.strVal ("1.8999999999")) 7
      (.floatVal (Rat.mk' 19 10)) = false := by
  refine ⟨⟨by decide, ?_⟩, by decide, by decide, ?_⟩
  · exact (isalmost_semantics.2.1 (.floatVal (Rat.mk' 18999999999 10000000000))
      (.floatVal (Rat.mk' 19 10)) 7 (Rat.mk' 18999999999 10000000000)
      (Rat.mk' 19 10) rfl rfl).mp (by decide)
  · exact isalmost_semantics.2.2.1 (.strVal ("1.8999999999"))
      (.floatVal (Rat.mk' 19 10)) 7 (Or.inl rfl)

/- ---------------------------------------------------------------------
   C8 helper lemmas
--------------------------------------------------------------------- -/

mutual

/-- A `Func`-free comparator's match test always returns a verdict. -/
theorem funcFree_matches_ok :
    ∀ (c : Comparator) (a : PyVal), c.funcFree = true →
      ∃ b, c.matches a = .ok b
  | .Equals v, a, _ => ⟨_, rfl⟩
  | .IsA t, a, _ => ⟨_, rfl⟩
  | .IsAlmost v p, a, _ => ⟨_, rfl⟩
  | .StrContains s, a, _ => ⟨_, rfl⟩
  | .Regex p f, a, _ => ⟨_, rfl⟩
  | .Func p, a, h => by simp [Comparator.funcFree] at h
  | .In ct, a, _ => ⟨_, rfl⟩
  | .ContainsKeyValue k v, a, _ => ⟨_, rfl⟩
  | .Is v, a, _ => ⟨_, rfl⟩
  | .And cs, a, h => by
      obtain ⟨b, hb⟩ := funcFree_matchesAnd_ok cs a
        (by simpa [Comparator.funcFree] using h)
      exact ⟨b, hb⟩
  | .Or cs, a, h => by
      obtain ⟨b, hb⟩ := funcFree_matchesOr_ok cs a
        (by simpa [Comparator.funcFree] using h)
      exact ⟨b, hb⟩
  | .Not c, a, h => by
      obtain ⟨b, hb⟩ := funcFree_matches_ok c a
        (by simpa [Comparator.funcFree] using h)
      exact ⟨!b, by simp [Comparator.matches, hb, except_ok_bind]⟩
  | .SameElementsAs x, a, _ => ⟨_, rfl⟩

/-- A `Func`-free clause sequence's conjunction always returns a verdict. -/
theorem funcFree_matchesAnd_ok :
    ∀ (cs : ComparatorList) (a : PyVal), ComparatorList.funcFree cs = true →
      ∃ b, Comparator.matchesAnd cs a = .ok b
  | .nil, a, _ => ⟨true, rfl⟩
  | .cons c cs, a, h => by
      have hc := (Bool.and_eq_true _ _).mp
        (by simpa [ComparatorList.funcFree] using h)
      obtain ⟨b, hb⟩ := funcFree_matches_ok c a hc.1
      cases b with
      | true =>
          obtain ⟨b2, hb2⟩ := funcFree_matchesAnd_ok cs a hc.2
          exact ⟨b2, by simp [Comparator.matchesAnd, hb, hb2, except_ok_bind]⟩
      | false =>
          exact ⟨false, by simp [Comparator.matchesAnd, hb, except_ok_bind]⟩

/-- A `Func`-free clause sequence's disjunction always returns a verdict. -/
theorem funcFree_matchesOr_ok :
    ∀ (cs : ComparatorList) (a : PyVal), ComparatorList.funcFree cs = true →
      ∃ b, Comparator.matchesOr cs a = .ok b
  | .nil, a, _ => ⟨false, rfl⟩
  | .cons c cs, a, h => by
      have hc := (Bool.and_eq_true _ _).mp
        (by simpa [ComparatorList.funcFree] using h)
      obtain ⟨b, hb⟩ := funcFree_matches_ok c a hc.1
      cases b with
      | false =>
          obtain ⟨b2, hb2⟩ := funcFree_matchesOr_ok cs a hc.2
          exact ⟨b2, by simp [Comparator.matchesOr, hb, hb2, except_ok_bind]⟩
      | true =>
          exact ⟨true, by simp [Comparator.matchesOr, hb, except_ok_bind]⟩

end

/- ---------------------------------------------------------------------
   C8
--------------------------------------------------------------------- -/

/-- C8: a comparator's match test never throws except `Func` — every
comparator containing no `Func` returns a verdict on every actual value,
while `Func(p)` returns exactly `p`'s outcome on the actual value:
a normal verdict is passed through, and a raised exception propagates
unmodified. -/
theorem comparator_match_exception_policy :
    (∀ (c : Comparator) (a : PyVal), c.funcFree = true →
      ∃ b, c.matches a = .ok b) ∧
    (∀ (p : PyVal → Except PyErr Bool) (a : PyVal),
      (Comparator.Func p).matches a = p a) :=
  ⟨funcFree_matches_ok, fun p a => rfl⟩

/-- Witness for C8: an `Equals` comparator yields a verdict, and the test
suite's raise-unless-one predicate wrapped in `Func` propagates its
exception on `2` and its verdict on `1`. -/
theorem comparator_match_exception_policy_witness :
    (∃ b, (Comparator.Equals (.intVal 1)).matches (.intVal 1) = .ok b) ∧
    (Comparator.Func raiseExceptionOnNotOne).matches (.intVal 2) =
      .error (.testException 0) ∧
    (Comparator.Func raiseExceptionOnNotOne).matches (.intVal 1) = .ok true :=
  ⟨comparator_match_exception_policy.1 (Comparator.Equals (.intVal 1))
      (.intVal 1) rfl,
    (comparator_match_exception_policy.2 raiseExceptionOnNotOne
      (.intVal 2)).trans rfl,
    (comparator_match_exception_policy.2 raiseExceptionOnNotOne
      (.intVal 1)).trans rfl⟩

/- ---------------------------------------------------------------------
   C10 helper lemmas
--------------------------------------------------------------------- -/

/-- Removing the first occurrence of `x` witnesses a permutation with
`x` consed onto the remainder. -/
theorem removeFirst_perm :
    ∀ (ys : PyList) (x : PyVal) (ys2 : PyList),
      PyList.removeFirst ys x = some ys2 →
      (PyList.toList ys).Perm (x :: PyList.toList ys2)
  | .nil, x, ys2, h => by simp [PyList.removeFirst] at h
  | .cons y ys, x, ys2, h => by
      by_cases hxy : pyEq y x = true
      · have hyx : y = x := of_decide_eq_true hxy
        simp [PyList.removeFirst, hxy] at h
        rw [← h, hyx]
        simp [PyList.toList]
      · have hxy2 : pyEq y x = false := by
          cases hb : pyEq y x with
          | true => exact absurd hb hxy
          | false => rfl
        cases hr : PyList.removeFirst ys x with
        | none => simp [PyList.removeFirst, hxy2, hr] at h
        | some r =>
            simp [PyList.removeFirst, hxy2, hr] at h
            rw [← h]
            simp only [PyList.toList]
            exact ((removeFirst_perm ys x r hr).cons y).trans
              (List.Perm.swap x y (PyList.toList r))

/-- A member of the element list always admits a first-occurrence
removal. -/
theorem removeFirst_of_mem :
    ∀ (ys : PyList) (x : PyVal), x ∈ PyList.toList ys →
      ∃ ys2, PyList.removeFirst ys x = some ys2
  | .nil, x, hx => by simp [PyList.toList] at hx
  | .cons y ys, x, hx => by
      by_cases hxy : pyEq y x = true
      · exact ⟨ys, by simp [PyList.removeFirst, hxy]⟩
      · have hxy2 : pyEq y x = false := by
          cases hb : pyEq y x with
          | true => exact absurd hb hxy
          | false => rfl
        have hyx : y ≠ x := by
          intro hcontra
          rw [hcontra] at hxy2
          simp [pyEq] at hxy2
        have hx2 : x ∈ PyList.toList ys := by
          rcases List.mem_cons.mp (by simpa [PyList.toList] using hx) with h | h
          · exact absurd h.symm hyx
          · exact h
        obtain ⟨r, hr⟩ := removeFirst_of_mem ys x hx2
        exact ⟨.cons y r, by simp [PyList.removeFirst, hxy2, hr]⟩

/-- `sameElements` decides exactly permutation of the element lists. -/
theorem sameElements_iff_perm :
    ∀ (xs ys : PyList),
      PyList.sameElements xs ys = true ↔
        (PyList.toList xs).Perm (PyList.toList ys)
  | .nil, ys => by
      cases ys with
      | nil => simp [PyList.sameElements, PyList.toList]
      | cons y ys => simp [PyList.sameElements, PyList.toList]
  | .cons x xs, ys => by
      cases hr : PyList.removeFirst ys x with
      | none =>
          simp only [PyList.sameElements, hr, PyList.toList]
          constructor
          · intro h; cases h
          · intro hperm
            have hx : x ∈ PyList.toList ys :=
              hperm.subset (List.mem_cons_self x _)
            obtain ⟨ys2, hys2⟩ := removeFirst_of_mem ys x hx
            rw [hr] at hys2
            cases hys2
      | some ys2 =>
          have hp := removeFirst_perm ys x ys2 hr
          simp only [PyList.sameElements, hr, PyList.toList]
          rw [sameElements_iff_perm xs ys2]
          constructor
          · intro h
            exact (h.cons x).trans hp.symm
          · intro h
            exact (h.trans hp).cons_inv

/- ---------------------------------------------------------------------
   C10
--------------------------------------------------------------------- -/

/-- C10: `SameElementsAs(expected)` never raises and matches exactly the
sequence actuals (an iterator being fully consumed and compared like its
stored element list) whose elements are a permutation of the expected
ones — order-insensitive, multiplicity-respecting, by structural
equality (so unhashable dictionary elements compare by equality); it
never matches a non-sequence actual; two empty sequences match; and the
unhashable-dict and partially-unhashable-iterator scenarios of the test
suite evaluate as asserted. -/
theorem same_elements_as_semantics :
    (∀ (exp : PyList) (a : PyVal),
      (Comparator.SameElementsAs exp).matches a =
        .ok (sameElementsMatch exp a)) ∧
    (∀ (exp xs : PyList),
      sameElementsMatch exp (.listVal xs) = true ↔
        (PyList.toList exp).Perm (PyList.toList xs)) ∧
    (∀ (exp xs : PyList),
      sameElementsMatch exp (.iterVal xs) = sameElementsMatch exp (.listVal xs)) ∧
    (∀ (exp : PyList) (a : PyVal), seqElems a = Option.none →
      sameElementsMatch exp a = false) ∧
    sameElementsMatch PyList.nil (.listVal PyList.nil) = true ∧
    sameElementsMatch
      (PyList.ofList [.dictVal (.cons (.strVal ("a")) (.intVal 1) .nil),
        .dictVal (.cons (.intVal 2) (.strVal ("b")) .nil)])
      (.listVal (PyList.ofList [.dictVal (.cons (.intVal 2) (.strVal ("b")) .nil),
        .dictVal (.cons (.strVal ("a")) (.intVal 1) .nil)])) = true ∧
    sameElementsMatch (PyList.ofList [.intVal 1, .intVal 2])
      (.iterVal (PyList.ofList [.dictVal .nil, .intVal 1, .intVal 2])) = false := by
  refine ⟨fun exp a => rfl, ?_, fun exp xs => rfl, ?_, by decide, by decide,
    by decide⟩
  · intro exp xs
    simpa [sameElementsMatch, seqElems] using sameElements_iff_perm exp xs
  · intro exp a h
    simp [sameElementsMatch, h]

/-- Witness for C10: a plain object is not a sequence, so it never
matches. -/
theorem same_elements_as_semantics_witness :
    sameElementsMatch PyList.nil (.objVal 0) = false :=
  same_elements_as_semantics.2.2.2.1 PyList.nil (.objVal 0) rfl

/-- Witness for C1: the empty queue verifies, and a queue pending the
one-error scenario's call fails with the aggregate error carrying its
rendering. -/
theorem verify_emptiness_and_error_rendering_witness :
    (MockAnything.mk [] []).verifyOk = true ∧
    (MockAnything.mk [MockSlot.single exampleMethod] []).Verify =
      .error (.ExpectedMethodCallsError (expectedMethodCallsErrorStr [exampleMethod])) :=
  ⟨(verify_emptiness_and_error_rendering.1 []).mpr rfl,
    verify_emptiness_and_error_rendering.2.1 exampleMethod []⟩

/-- Witness for C4: the theorem instantiated at the test suite's value
`'hello world'`. -/
theorem value_remember_lifecycle_witness :
    Value.new.equalsV (.strVal ("hello world")) = false ∧
    ((Remember.mk Value.new).equalsR (.strVal ("hello world"))).1 = true ∧
    (((Remember.mk Value.new).equalsR
      (.strVal ("hello world"))).2.value_store).equalsV
        (.strVal ("hello world")) = true :=
  value_remember_lifecycle (.strVal ("hello world"))
